import Mathlib

/-!
Verification of the SCheck-Blocklist CLI against its specification.

The repository consists of a thin CLI layer (`cli.py`) delegating to the
blocklist engine (`scheckbl.blocklist`), whose source is not part of the
repository checkout.  The engine operations (`check`, `get`, `similar`)
are therefore modelled from the specification; the CLI control flow
(exit codes, error surfacing, warning/return paths, output-file naming)
is embedded directly from `cli.py`.

Strings are modelled as `List Char`; similarity scores as `ℚ`.
-/

namespace SCheck

/-- Error taxonomy of the specification (§7): `NotFoundError`,
`PatternError`, `ValueError`-class, `IOError`-class. -/
inductive Err where
  | notFound
  | patternError
  | valueError
  | ioError
deriving DecidableEq

instance {ε α : Type} [DecidableEq ε] [DecidableEq α] : DecidableEq (Except ε α)
  | .error a, .error b =>
      if h : a = b then .isTrue (by rw [h]) else .isFalse (by simp [h])
  | .error _, .ok _ => .isFalse (by simp)
  | .ok _, .error _ => .isFalse (by simp)
  | .ok a, .ok b =>
      if h : a = b then .isTrue (by rw [h]) else .isFalse (by simp [h])

/-- An entry is a string, modelled as a list of characters. -/
abbrev Entry := List Char

/-- A similarity result: an entry together with its score. -/
abbrev SimResult := Entry × ℚ

/-- Modelled from the spec: the reference similarity metric of §4.5 uses
the classic Levenshtein edit distance; the engine source is not in the
repository checkout. -/
def levenshtein : List Char → List Char → Nat
  | [], b => b.length
  | _ :: a, [] => a.length + 1
  | x :: a, y :: b =>
      if x = y then levenshtein a b
      else 1 + min (levenshtein a b)
                (min (levenshtein (x :: a) b) (levenshtein a (y :: b)))
termination_by a b => a.length + b.length

theorem levenshtein_le_max : ∀ a b : List Char, levenshtein a b ≤ max a.length b.length
  | [], b => by simp [levenshtein]
  | x :: a, [] => by simp [levenshtein]
  | x :: a, y :: b => by
      rw [levenshtein]
      by_cases hxy : x = y
      · rw [if_pos hxy]
        calc levenshtein a b ≤ max a.length b.length := levenshtein_le_max a b
          _ ≤ max (x :: a).length (y :: b).length := by simp; omega
      · rw [if_neg hxy]
        have h1 : levenshtein a b ≤ max a.length b.length := levenshtein_le_max a b
        simp only [List.length_cons]
        omega
termination_by a b => a.length + b.length

/-- Modelled from the spec: normalized similarity score of §4.5,
`1 - levenshtein(a, b) / max(len a, len b)`, with score 1 when both
strings are empty; the engine source is not in the repository checkout. -/
def score (a b : List Char) : ℚ :=
  if max a.length b.length = 0 then 1
  else 1 - (levenshtein a b : ℚ) / (max a.length b.length : ℚ)

theorem score_nonneg (a b : List Char) : 0 ≤ score a b := by
  unfold score
  by_cases h : max a.length b.length = 0
  · rw [if_pos h]; norm_num
  · rw [if_neg h]
    have hpos : (0 : ℚ) < (max a.length b.length : ℚ) := by
      exact_mod_cast Nat.pos_of_ne_zero h
    have hle : (levenshtein a b : ℚ) ≤ (max a.length b.length : ℚ) := by
      exact_mod_cast levenshtein_le_max a b
    have := (div_le_one hpos).mpr hle
    linarith

theorem score_le_one (a b : List Char) : score a b ≤ 1 := by
  unfold score
  by_cases h : max a.length b.length = 0
  · rw [if_pos h]
  · rw [if_neg h]
    have hpos : (0 : ℚ) < (max a.length b.length : ℚ) := by
      exact_mod_cast Nat.pos_of_ne_zero h
    have : (0 : ℚ) ≤ (levenshtein a b : ℚ) / (max a.length b.length : ℚ) :=
      div_nonneg (by positivity) (le_of_lt hpos)
    linarith

/-- Score-descending comparison used to order similarity results. -/
def desc (a b : SimResult) : Prop := b.2 ≤ a.2

instance : DecidableRel desc := fun a b => inferInstanceAs (Decidable (b.2 ≤ a.2))

instance : IsTotal SimResult desc := ⟨fun a b => le_total b.2 a.2⟩

instance : IsTrans SimResult desc := ⟨fun _ _ _ h1 h2 => le_trans h2 h1⟩

/-- Every entry paired with its similarity score against the phrase, in
original dataset order. -/
def scoredEntries (entries : List Entry) (phrase : List Char) : List SimResult :=
  entries.map (fun e => (e, score e phrase))

/-- Modelled from the spec: the SimilarityRanker of §4.5 (the engine
source is not in the repository checkout).  Thresholds outside `[0, 1]`
signal a `ValueError`-class failure before any scoring; otherwise every
entry is scored, entries below the threshold are excluded, and the
survivors are sorted by score descending with insertion sort, which
keeps equal scores in original dataset order. -/
def rank (entries : List Entry) (phrase : List Char) (threshold : ℚ) :
    Except Err (List SimResult) :=
  if threshold < 0 ∨ 1 < threshold then .error .valueError
  else .ok (List.insertionSort desc
    ((scoredEntries entries phrase).filter (fun r => decide (threshold ≤ r.2))))

theorem orderedInsert_eq_cons (x : SimResult) (L : List SimResult)
    (h : ∀ z, L.head? = some z → desc x z) :
    List.orderedInsert desc x L = x :: L := by
  cases L with
  | nil => rfl
  | cons y ys =>
      rw [List.orderedInsert, if_pos (h y rfl)]

theorem filter_orderedInsert_pos (p : SimResult → Bool) (x : SimResult)
    (px : p x = true) :
    ∀ s : List SimResult, s.Sorted desc →
      (List.orderedInsert desc x s).filter p =
        List.orderedInsert desc x (s.filter p)
  | [], _ => by simp [List.orderedInsert, px]
  | y :: ys, hs => by
      by_cases hxy : desc x y
      · rw [List.orderedInsert, if_pos hxy, List.filter_cons_of_pos px]
        have hall : ∀ z ∈ y :: ys, desc x z := by
          intro z hz
          rcases List.mem_cons.mp hz with hz | hz
          · exact hz ▸ hxy
          · exact le_trans ((List.sorted_cons.mp hs).1 z hz) hxy
        rw [orderedInsert_eq_cons x ((y :: ys).filter p)]
        intro z hz
        exact hall z (List.mem_of_mem_filter (List.mem_of_mem_head? hz))
      · rw [List.orderedInsert, if_neg hxy]
        have ih := filter_orderedInsert_pos p x px ys (List.sorted_cons.mp hs).2
        by_cases hy : p y = true
        · rw [List.filter_cons_of_pos hy, List.filter_cons_of_pos hy, ih,
            List.orderedInsert, if_neg hxy]
        · rw [List.filter_cons_of_neg (by simpa using hy),
            List.filter_cons_of_neg (by simpa using hy), ih]

theorem filter_orderedInsert_neg (p : SimResult → Bool) (x : SimResult)
    (px : p x = false) :
    ∀ s : List SimResult,
      (List.orderedInsert desc x s).filter p = s.filter p
  | [] => by simp [List.orderedInsert, px]
  | y :: ys => by
      by_cases hxy : desc x y
      · rw [List.orderedInsert, if_pos hxy,
          List.filter_cons_of_neg (by simp [px])]
      · rw [List.orderedInsert, if_neg hxy]
        have ih := filter_orderedInsert_neg p x px ys
        by_cases hy : p y = true
        · rw [List.filter_cons_of_pos hy, List.filter_cons_of_pos hy, ih]
        · rw [List.filter_cons_of_neg (by simpa using hy),
            List.filter_cons_of_neg (by simpa using hy), ih]

/-- Filtering commutes with the stable score-descending sort. -/
theorem filter_insertionSort (p : SimResult → Bool) :
    ∀ l : List SimResult,
      (List.insertionSort desc l).filter p =
        List.insertionSort desc (l.filter p)
  | [] => rfl
  | x :: l => by
      rw [List.insertionSort]
      by_cases hx : p x = true
      · rw [filter_orderedInsert_pos p x hx _ (List.sorted_insertionSort desc l),
          filter_insertionSort p l, List.filter_cons_of_pos hx, List.insertionSort]
      · rw [filter_orderedInsert_neg p x (by simpa using hx),
          filter_insertionSort p l, List.filter_cons_of_neg (by simpa using hx)]

/-- Modelled from the spec: the ExactMatcher of §4.2 (the engine source
is not in the repository checkout).  An empty keyword always yields
`false`; otherwise the keyword is compared for exact, case-sensitive
equality against each entry. -/
def check (entries : List Entry) (keyword : List Char) : Bool :=
  if keyword = [] then false
  else entries.any (fun e => decide (e = keyword))

/-- Modelled from the spec: the PatternFilter of §4.4 works on regular
expressions in a standard syntax (the engine source is not in the
repository checkout).  The abstract syntax covers literals, the wildcard
dot, grouping, alternation and Kleene star. -/
inductive Regex where
  | fail
  | emptyStr
  | lit (c : Char)
  | dot
  | cat (r s : Regex)
  | alt (r s : Regex)
  | star (r : Regex)
deriving DecidableEq

/-- Whether a regular expression accepts the empty string. -/
def nullable : Regex → Bool
  | .fail => false
  | .emptyStr => true
  | .lit _ => false
  | .dot => false
  | .cat r s => nullable r && nullable s
  | .alt r s => nullable r || nullable s
  | .star _ => true

/-- Brzozowski derivative of a regular expression by one character. -/
def deriv : Regex → Char → Regex
  | .fail, _ => .fail
  | .emptyStr, _ => .fail
  | .lit c, a => if a = c then .emptyStr else .fail
  | .dot, _ => .emptyStr
  | .cat r s, a =>
      if nullable r then .alt (.cat (deriv r a) s) (deriv s a)
      else .cat (deriv r a) s
  | .alt r s, a => .alt (deriv r a) (deriv s a)
  | .star r, a => .cat (deriv r a) (.star r)

/-- Whether some prefix of the input is matched by the expression. -/
def matchesSomePrefix (r : Regex) : List Char → Bool
  | [] => nullable r
  | c :: s => nullable r || matchesSomePrefix (deriv r c) s

/-- Search semantics: whether the expression matches anywhere within the
input string, at any start position. -/
def rsearch (r : Regex) : List Char → Bool
  | [] => nullable r
  | c :: s => matchesSomePrefix r (c :: s) || rsearch r s

/-- Absorb trailing star operators into the parsed atom. -/
def applyStars (r : Regex) : List Char → Regex × List Char
  | '*' :: s => applyStars (.star r) s
  | s => (r, s)

mutual

/-- Parse an alternation (`a|b|c`), returning the expression and the
unconsumed input, or `none` on a syntax error.  The fuel argument bounds
the recursion depth; `compile` supplies enough for any input. -/
def parseAlt : Nat → List Char → Option (Regex × List Char)
  | 0, _ => none
  | fuel + 1, s =>
      match parseCat fuel s with
      | none => none
      | some (r, s1) =>
          match s1 with
          | '|' :: s2 =>
              match parseAlt fuel s2 with
              | none => none
              | some (r2, s3) => some (.alt r r2, s3)
          | _ => some (r, s1)

/-- Parse a concatenation of starred atoms, stopping at end of input,
a closing parenthesis or an alternation bar. -/
def parseCat : Nat → List Char → Option (Regex × List Char)
  | 0, _ => none
  | fuel + 1, s =>
      match s with
      | [] => some (.emptyStr, [])
      | ')' :: _ => some (.emptyStr, s)
      | '|' :: _ => some (.emptyStr, s)
      | _ =>
          match parseStarred fuel s with
          | none => none
          | some (r, s1) =>
              match parseCat fuel s1 with
              | none => none
              | some (r2, s2) => some (.cat r r2, s2)

/-- Parse one atom followed by any number of Kleene stars. -/
def parseStarred : Nat → List Char → Option (Regex × List Char)
  | 0, _ => none
  | fuel + 1, s =>
      match parseAtom fuel s with
      | none => none
      | some (r, s1) => some (applyStars r s1)

/-- Parse a single atom: a group, a wildcard dot or a literal.  A bare
closing parenthesis or a star with nothing to repeat is a syntax error;
a group whose closing parenthesis is missing is a syntax error. -/
def parseAtom : Nat → List Char → Option (Regex × List Char)
  | 0, _ => none
  | fuel + 1, s =>
      match s with
      | [] => none
      | '(' :: rest =>
          match parseAlt fuel rest with
          | none => none
          | some (r, s1) =>
              match s1 with
              | ')' :: s2 => some (r, s2)
              | _ => none
      | ')' :: _ => none
      | '*' :: _ => none
      | '|' :: _ => none
      | '.' :: rest => some (.dot, rest)
      | c :: rest => some (.lit c, rest)

end

/-- Compile a pattern string to a regular expression; `none`-producing
syntax errors become the `PatternError` of §7.  The fuel is generous:
each parser step consumes one unit and at least every fourth step
consumes an input character. -/
def compile (pat : List Char) : Except Err Regex :=
  match parseAlt (4 * pat.length + 8) pat with
  | some (r, []) => .ok r
  | _ => .error .patternError

/-- Modelled from the spec: the `get` operation of §6 over a resolved
dataset (the engine source is not in the repository checkout).  With no
regex it returns all entries in original order; with a regex it keeps
exactly the entries the pattern matches anywhere within; an invalid
pattern propagates `PatternError`. -/
def get (entries : List Entry) (regex : Option (List Char)) :
    Except Err (List Entry) :=
  match regex with
  | none => .ok entries
  | some pat => (compile pat).map (fun r => entries.filter (fun e => rsearch r e))

/-- Characters kept verbatim by the slugifier: the pattern `[^\w\-]+` in
`cli.py` replaces everything that is not a word character and not a
hyphen.  Python's `\w` on `str` is the Unicode word class, whose tables
are not reproducible here, so the word class is a parameter `w` of the
embedding; only stated properties of `w` are ever assumed. -/
def keptChar (w : Char → Bool) (c : Char) : Bool := w c || c = '-'

/-- The ASCII fragment of the Unicode word class: ASCII alphanumerics
and the underscore.  Used to instantiate the parameterized slugifier
where the CLI models need a concrete filename, and in witnesses. -/
def asciiWordChar (c : Char) : Bool := c.isAlphanum || c = '_'

/-- Replace every maximal run of non-kept characters by one underscore,
embedding the substitution `re.sub(r"[^\w\-]+", "_", text)` of `cli.py`
with word class `w`.  The flag records whether the previous character
was inside such a run. -/
def collapseRuns (w : Char → Bool) (inRun : Bool) : List Char → List Char
  | [] => []
  | c :: cs =>
      if keptChar w c then c :: collapseRuns w false cs
      else if inRun then collapseRuns w true cs
      else '_' :: collapseRuns w true cs

/-- Remove leading and trailing underscores, embedding `.strip("_")`. -/
def stripUnderscores (l : List Char) : List Char :=
  ((l.dropWhile (fun c => decide (c = '_'))).reverse.dropWhile
    (fun c => decide (c = '_'))).reverse

/-- The `_slugify` helper of `cli.py`: substitute runs of non-word,
non-hyphen characters with a single underscore, strip underscores at
both ends, then lowercase.  The regex engine's word class `w` and the
character-wise lowercasing `low` of the runtime are parameters. -/
def slugify (w : Char → Bool) (low : Char → Char) (text : List Char) :
    List Char :=
  (stripUnderscores (collapseRuns w false text)).map low

/-- The `%Y-%m-%d` timestamp of `_auto_filename`, with the current date
supplied as explicit year/month/day numbers (zero-padded to four and two
digits, as `strftime` renders dates below the year 10000). -/
def formatDate (y m d : Nat) : List Char :=
  [Nat.digitChar (y / 1000 % 10), Nat.digitChar (y / 100 % 10),
   Nat.digitChar (y / 10 % 10), Nat.digitChar (y % 10), '-',
   Nat.digitChar (m / 10 % 10), Nat.digitChar (m % 10), '-',
   Nat.digitChar (d / 10 % 10), Nat.digitChar (d % 10)]

/-- The `_auto_filename` helper of `cli.py`: slugified parts joined with
underscores, an underscore, the date stamp, a dot and the extension.
Instantiated with the ASCII word class and ASCII lowercasing so that the
CLI outcome models carry a concrete path; no claim about those outcomes
depends on the path's characters. -/
def autoFilename (parts : List (List Char)) (y m d : Nat) (ext : List Char) :
    List Char :=
  List.intercalate ['_'] (parts.map (slugify asciiWordChar Char.toLower)) ++
    '_' :: formatDate y m d ++ '.' :: ext

/-- Observable outcome of the `check` and `find` CLI commands: the
process exit code, the error surfaced through the `except` branch (if
any), and the boolean result echoed (if any). -/
structure BoolCmdOutcome where
  exitCode : Nat
  surfaced : Option Err
  echoed : Option Bool
deriving DecidableEq

/-- The `check` command body of `cli.py` (lines 111-118): echo the
boolean and exit 0 or 1, or echo the caught error and exit 1. -/
def cliCheckCmd : Except Err Bool → BoolCmdOutcome
  | .ok b => ⟨if b then 0 else 1, none, some b⟩
  | .error e => ⟨1, some e, none⟩

/-- The `find` command body of `cli.py` (lines 140-147), identical in
control flow to `check`. -/
def cliFindCmd : Except Err Bool → BoolCmdOutcome
  | .ok b => ⟨if b then 0 else 1, none, some b⟩
  | .error e => ⟨1, some e, none⟩

/-- Observable outcome of the `get` CLI command: exit code, surfaced
error, and the path of the file written (none when printing to stdout
or on error).  Rendering of the entry list is elided. -/
structure GetCmdOutcome where
  exitCode : Nat
  surfaced : Option Err
  written : Option (List Char)
deriving DecidableEq

/-- The `get` command body of `cli.py` (lines 183-200): on success write
to the given or auto-generated path (or page to stdout), on any caught
error echo it and exit 1. -/
def cliGetCmd (typeName category : List Char) (res : Except Err (List Entry))
    (stdoutFlag : Bool) (output : Option (List Char)) (y m d : Nat) :
    GetCmdOutcome :=
  match res with
  | .error e => ⟨1, some e, none⟩
  | .ok _ =>
      if stdoutFlag then ⟨0, none, none⟩
      else ⟨0, none,
        some (output.getD (autoFilename [typeName, category, ("get").data]
          y m d ("txt").data))⟩

/-- Observable outcome of the `similar` CLI command: exit code, surfaced
error, whether the no-results warning was printed, and the path of the
file written (if any).  Rendering of the result list is elided. -/
structure SimilarCmdOutcome where
  exitCode : Nat
  surfaced : Option Err
  warned : Bool
  written : Option (List Char)
deriving DecidableEq

/-- The `similar` command body of `cli.py` (lines 239-268): on empty
results print a warning and return (exit 0, nothing written); otherwise
print to stdout or write to the given or auto-generated path; on any
caught error echo it and exit 1. -/
def cliSimilarCmd (typeName category : List Char)
    (res : Except Err (List SimResult)) (stdoutFlag asJson : Bool)
    (output : Option (List Char)) (y m d : Nat) : SimilarCmdOutcome :=
  match res with
  | .error e => ⟨1, some e, false, none⟩
  | .ok results =>
      if results.isEmpty then ⟨0, none, true, none⟩
      else if stdoutFlag then ⟨0, none, false, none⟩
      else ⟨0, none, false,
        some (output.getD (autoFilename [typeName, category, ("similar").data]
          y m d (if asJson then ("json").data else ("txt").data)))⟩

/-- The `similar` command end to end: the CLI delegates the threshold to
`blocklist.similar` unchanged (line 240 of `cli.py` performs no range
check of its own) and renders the engine outcome. -/
def cliSimilarRun (typeName category : List Char) (entries : List Entry)
    (phrase : List Char) (threshold : ℚ) (stdoutFlag asJson : Bool)
    (output : Option (List Char)) (y m d : Nat) : SimilarCmdOutcome :=
  cliSimilarCmd typeName category (rank entries phrase threshold)
    stdoutFlag asJson output y m d

/-- Default of the threshold CLI option `-t` (line 230 of `cli.py`). -/
def cliThresholdDefault : ℚ := 6 / 10

/-- Modelled from the spec: the engine-boundary default of `similar`
(§6 gives `threshold: float = 0.6`; the engine source is not in the
repository checkout). -/
def similarThresholdDefault : ℚ := 6 / 10

/-- The engine `similar` operation invoked without an explicit
threshold. -/
def similarWithDefault (entries : List Entry) (phrase : List Char) :
    Except Err (List SimResult) :=
  rank entries phrase similarThresholdDefault

/-- C1: a threshold outside `[0, 1]` makes `similar` signal a
`ValueError`-class failure before any entry is scored (the outcome does
not depend on the entries), and the CLI `similar` command performs no
range check of its own: it delegates the threshold unchanged and merely
surfaces the engine failure. -/
theorem similar_out_of_range_valueError (entries : List Entry)
    (phrase : List Char) (t : ℚ) (h : t < 0 ∨ 1 < t) :
    rank entries phrase t = .error .valueError ∧
    rank entries phrase t = rank [] phrase t ∧
    ∀ (tn cat : List Char) (s j : Bool) (o : Option (List Char)) (y m d : Nat),
      cliSimilarRun tn cat entries phrase t s j o y m d =
        ⟨1, some .valueError, false, none⟩ := by
  have hr : ∀ es : List Entry, rank es phrase t = .error .valueError := by
    intro es
    unfold rank
    rw [if_pos h]
  refine ⟨hr entries, (hr entries).trans (hr []).symm, ?_⟩
  intro tn cat s j o y m d
  unfold cliSimilarRun
  rw [hr entries]
  rfl

/-- Witness for C1 at the concrete threshold 1.5 of the spec. -/
theorem similar_out_of_range_valueError_witness :
    ((3 / 2 : ℚ) < 0 ∨ 1 < (3 / 2 : ℚ)) ∧
    rank [("hello").data] ("x").data (3 / 2) = .error .valueError := by
  have h : (3 / 2 : ℚ) < 0 ∨ 1 < (3 / 2 : ℚ) := Or.inr (by norm_num)
  exact ⟨h, (similar_out_of_range_valueError [("hello").data] ("x").data (3 / 2) h).1⟩

/-- C2: for thresholds in `[0, 1]` the output of `similar` equals the
zero-threshold output filtered by score at least the threshold, in the
same relative order. -/
theorem similar_eq_filter_of_zero (entries : List Entry) (phrase : List Char)
    (t : ℚ) (h0 : 0 ≤ t) (h1 : t ≤ 1) :
    rank entries phrase t =
      (rank entries phrase 0).map
        (fun l => l.filter (fun r => decide (t ≤ r.2))) := by
  have hnot : ¬(t < 0 ∨ 1 < t) := by push_neg; exact ⟨h0, h1⟩
  have h0not : ¬((0 : ℚ) < 0 ∨ (1 : ℚ) < 0) := by norm_num
  unfold rank
  rw [if_neg hnot, if_neg h0not]
  simp only [Except.map]
  have hall : (scoredEntries entries phrase).filter
      (fun r => decide ((0 : ℚ) ≤ r.2)) = scoredEntries entries phrase := by
    apply List.filter_eq_self.mpr
    intro a ha
    obtain ⟨e, _, rfl⟩ := List.mem_map.mp ha
    simpa using score_nonneg e phrase
  rw [hall, filter_insertionSort]

/-- Witness for C2 at threshold one half on a two-entry dataset. -/
theorem similar_eq_filter_of_zero_witness :
    (0 : ℚ) ≤ 1 / 2 ∧ (1 / 2 : ℚ) ≤ 1 ∧
    rank [("ab").data, ("xyzw").data] ("aa").data (1 / 2) =
      (rank [("ab").data, ("xyzw").data] ("aa").data 0).map
        (fun l => l.filter (fun r => decide ((1 / 2 : ℚ) ≤ r.2))) :=
  ⟨by norm_num, by norm_num,
    similar_eq_filter_of_zero [("ab").data, ("xyzw").data] ("aa").data (1 / 2)
      (by norm_num) (by norm_num)⟩

/-- C4: `check` returns true exactly when the keyword equals some entry
(exact, case-sensitive comparison), given the data-model invariant that
entries are non-empty, and `check` with an empty keyword is false. -/
theorem check_true_iff_mem (E : List Entry) (K : List Char)
    (hE : ∀ e ∈ E, e ≠ ([] : List Char)) :
    (check E K = true ↔ K ∈ E) ∧ check E [] = false := by
  constructor
  · by_cases hK : K = []
    · subst hK
      simp only [check, if_pos rfl]
      constructor
      · intro h
        exact absurd h (by simp)
      · intro hmem
        exact absurd rfl (hE [] hmem)
    · simp only [check, if_neg hK, List.any_eq_true, decide_eq_true_eq]
      constructor
      · rintro ⟨e, he, rfl⟩
        exact he
      · intro h
        exact ⟨K, h, rfl⟩
  · simp [check]

/-- Witness for C4 on a singleton dataset. -/
theorem check_true_iff_mem_witness :
    (∀ e ∈ [("a").data], e ≠ ([] : List Char)) ∧
    ((check [("a").data] (("a").data) = true ↔ ("a").data ∈ [("a").data]) ∧
      check [("a").data] [] = false) :=
  ⟨by decide, check_true_iff_mem [("a").data] (("a").data) (by decide)⟩

/-- C6: the threshold defaults to 0.6 both at the engine boundary and
for the CLI threshold option. -/
theorem similar_default_threshold :
    similarThresholdDefault = 6 / 10 ∧
    cliThresholdDefault = 6 / 10 ∧
    similarThresholdDefault = cliThresholdDefault ∧
    ∀ (entries : List Entry) (phrase : List Char),
      similarWithDefault entries phrase = rank entries phrase (6 / 10) :=
  ⟨rfl, rfl, rfl, fun _ _ => rfl⟩

/-- C3: every successful `similar` result list is sorted by score
descending; results with exactly equal scores appear in original
dataset order (the score-class of any value q equals the original-order
filter of the scored dataset); and on entries ab, ac with phrase aa and
threshold zero the result is ab then ac, both with score one half. -/
theorem similar_sorted_and_stable :
    (∀ (entries : List Entry) (phrase : List Char) (t : ℚ)
        (L : List SimResult), rank entries phrase t = .ok L →
      L.Sorted desc ∧
      ∀ q : ℚ, L.filter (fun r => decide (r.2 = q)) =
        (scoredEntries entries phrase).filter
          (fun r => decide (t ≤ r.2) && decide (r.2 = q))) ∧
    rank [['a','b'], ['a','c']] ['a','a'] 0 =
      .ok [((['a','b'] : Entry), (1 / 2 : ℚ)), ((['a','c'] : Entry), (1 / 2 : ℚ))] := by
  constructor
  · intro entries phrase t L hL
    unfold rank at hL
    by_cases h : t < 0 ∨ 1 < t
    · rw [if_pos h] at hL
      exact absurd hL (by simp)
    · rw [if_neg h] at hL
      have hL2 : List.insertionSort desc ((scoredEntries entries phrase).filter
          (fun r => decide (t ≤ r.2))) = L := by
        injection hL
      constructor
      · rw [← hL2]
        exact List.sorted_insertionSort desc _
      · intro q
        rw [← hL2, filter_insertionSort, List.filter_filter]
        have hcomm : (fun (a : SimResult) => decide (a.2 = q) && decide (t ≤ a.2)) =
            (fun a : SimResult => decide (t ≤ a.2) && decide (a.2 = q)) := by
          funext a
          exact Bool.and_comm _ _
        rw [hcomm]
        apply List.Sorted.insertionSort_eq
        apply List.pairwise_of_forall_mem_list
        intro a ha b hb
        have ha2 := (List.mem_filter.mp ha).2
        have hb2 := (List.mem_filter.mp hb).2
        rw [Bool.and_eq_true, decide_eq_true_eq, decide_eq_true_eq] at ha2 hb2
        show b.2 ≤ a.2
        rw [ha2.2, hb2.2]
  · have hlev1 : levenshtein ['a','b'] ['a','a'] = 1 := by
      rw [levenshtein, if_pos rfl, levenshtein, if_neg (by decide)]
      simp [levenshtein]
    have hlev2 : levenshtein ['a','c'] ['a','a'] = 1 := by
      rw [levenshtein, if_pos rfl, levenshtein, if_neg (by decide)]
      simp [levenshtein]
    have hs1 : score ['a','b'] ['a','a'] = 1 / 2 := by
      rw [score, if_neg (by norm_num), hlev1]
      norm_num
    have hs2 : score ['a','c'] ['a','a'] = 1 / 2 := by
      rw [score, if_neg (by norm_num), hlev2]
      norm_num
    rw [rank, if_neg (by norm_num)]
    have hscored : scoredEntries [['a','b'], ['a','c']] ['a','a'] =
        [((['a','b'] : Entry), (1 / 2 : ℚ)), ((['a','c'] : Entry), (1 / 2 : ℚ))] := by
      simp [scoredEntries, hs1, hs2]
    rw [hscored]
    have hd : decide ((0 : ℚ) ≤ 1 / 2) = true := decide_eq_true (by norm_num)
    have hfilter : List.filter (fun r => decide ((0 : ℚ) ≤ r.2))
        [((['a','b'] : Entry), (1 / 2 : ℚ)), ((['a','c'] : Entry), (1 / 2 : ℚ))] =
        [((['a','b'] : Entry), (1 / 2 : ℚ)), ((['a','c'] : Entry), (1 / 2 : ℚ))] := by
      simp [List.filter, hd]
    rw [hfilter]
    have hsort : List.insertionSort desc
        [((['a','b'] : Entry), (1 / 2 : ℚ)), ((['a','c'] : Entry), (1 / 2 : ℚ))] =
        [((['a','b'] : Entry), (1 / 2 : ℚ)), ((['a','c'] : Entry), (1 / 2 : ℚ))] := by
      apply List.Sorted.insertionSort_eq
      simp [List.sorted_cons, desc]
    rw [hsort]

/-- Witness for C3: the concrete tie-break example provides the `.ok`
hypothesis, and the general part yields sortedness of its output. -/
theorem similar_sorted_and_stable_witness :
    rank [['a','b'], ['a','c']] ['a','a'] 0 =
      .ok [((['a','b'] : Entry), (1 / 2 : ℚ)), ((['a','c'] : Entry), (1 / 2 : ℚ))] ∧
    ([((['a','b'] : Entry), (1 / 2 : ℚ)),
      ((['a','c'] : Entry), (1 / 2 : ℚ))] : List SimResult).Sorted desc :=
  ⟨similar_sorted_and_stable.2,
    (similar_sorted_and_stable.1 [['a','b'], ['a','c']] ['a','a'] 0 _
      similar_sorted_and_stable.2).1⟩

/-- C5: `get` with no regex returns all entries in original order; with
a compilable regex it returns exactly the order-preserving subsequence
of entries the pattern matches anywhere within; a pattern that fails to
compile always signals `PatternError`. -/
theorem get_regex_semantics :
    (∀ entries : List Entry, get entries none = .ok entries) ∧
    (∀ (entries : List Entry) (pat : List Char) (r : Regex),
        compile pat = .ok r →
        get entries (some pat) = .ok (entries.filter (fun e => rsearch r e)) ∧
        (entries.filter (fun e => rsearch r e)).Sublist entries) ∧
    (∀ (entries : List Entry) (pat : List Char) (e : Err),
        compile pat = .error e →
        e = .patternError ∧ get entries (some pat) = .error .patternError) := by
  refine ⟨fun _ => rfl, ?_, ?_⟩
  · intro entries pat r h
    refine ⟨?_, List.filter_sublist entries⟩
    show Except.map (fun r => entries.filter (fun e => rsearch r e)) (compile pat) =
      .ok (entries.filter (fun e => rsearch r e))
    rw [h]
    rfl
  · intro entries pat e h
    have he : e = .patternError := by
      unfold compile at h
      split at h
      · exact absurd h (by simp)
      · injection h with h2
        exact h2.symm
    refine ⟨he, ?_⟩
    show Except.map (fun r => entries.filter (fun e => rsearch r e)) (compile pat) =
      .error .patternError
    rw [h, he]
    rfl

/-- Witness for C5: the literal pattern a filters a two-entry dataset to
its matching entry, and the unbalanced pattern consisting of one opening
parenthesis signals `PatternError`. -/
theorem get_regex_semantics_witness :
    compile ['a'] = .ok (Regex.cat (Regex.lit 'a') Regex.emptyStr) ∧
    get [['a','b'], ['x','y']] (some ['a']) = .ok [['a','b']] ∧
    compile ['('] = .error .patternError ∧
    get [['a','b']] (some ['(']) = .error .patternError := by
  refine ⟨by decide, ?_, by decide, ?_⟩
  · have h := (get_regex_semantics.2.1 [['a','b'], ['x','y']] ['a']
      (Regex.cat (Regex.lit 'a') Regex.emptyStr) (by decide)).1
    rw [h]
    decide
  · exact (get_regex_semantics.2.2 [['a','b']] ['('] Err.patternError
      (by decide)).2

/-- C7: every engine error is surfaced verbatim by the CLI commands
(the outcome carries exactly the raised error, never none) and the
process exits non-zero; in particular an error outcome never coincides
with the outcome for an empty dataset or for no matches. -/
theorem errors_surfaced_and_nonzero_exit (e : Err) :
    cliCheckCmd (.error e) = ⟨1, some e, none⟩ ∧
    cliFindCmd (.error e) = ⟨1, some e, none⟩ ∧
    (∀ (tn cat : List Char) (s : Bool) (o : Option (List Char)) (y m d : Nat),
      cliGetCmd tn cat (.error e) s o y m d = ⟨1, some e, none⟩) ∧
    (∀ (tn cat : List Char) (s j : Bool) (o : Option (List Char)) (y m d : Nat),
      cliSimilarCmd tn cat (.error e) s j o y m d = ⟨1, some e, false, none⟩) ∧
    (∀ (tn cat : List Char) (s : Bool) (o : Option (List Char)) (y m d : Nat),
      cliGetCmd tn cat (.error e) s o y m d ≠ cliGetCmd tn cat (.ok []) s o y m d) ∧
    (∀ (tn cat : List Char) (s j : Bool) (o : Option (List Char)) (y m d : Nat),
      cliSimilarCmd tn cat (.error e) s j o y m d ≠
        cliSimilarCmd tn cat (.ok []) s j o y m d) := by
  refine ⟨rfl, rfl, fun _ _ _ _ _ _ _ => rfl, fun _ _ _ _ _ _ _ _ => rfl, ?_, ?_⟩
  · intro tn cat s o y m d
    cases s <;> simp [cliGetCmd]
  · intro tn cat s j o y m d
    intro hcontra
    have := congrArg SimilarCmdOutcome.exitCode hcontra
    simp [cliSimilarCmd] at this
 
/-- C8: for the `check` and `find` CLI commands the exit code is zero
exactly when the engine returned true; it is one both when the engine
returned false and when it raised any error, so exit code one does not
distinguish a miss from a failure. -/
theorem check_find_exit_codes :
    (∀ res : Except Err Bool,
      ((cliCheckCmd res).exitCode = 0 ↔ res = .ok true) ∧
      ((cliFindCmd res).exitCode = 0 ↔ res = .ok true)) ∧
    (∀ e : Err,
      (cliCheckCmd (.ok false)).exitCode = 1 ∧
      (cliCheckCmd (.error e)).exitCode = 1 ∧
      (cliFindCmd (.ok false)).exitCode = 1 ∧
      (cliFindCmd (.error e)).exitCode = 1) := by
  constructor
  · intro res
    cases res with
    | error e => simp [cliCheckCmd, cliFindCmd]
    | ok b => cases b <;> simp [cliCheckCmd, cliFindCmd]
  · intro e
    exact ⟨rfl, rfl, rfl, rfl⟩

/-- C9: when the underlying `similar` results are empty the CLI prints
the warning, writes no file, surfaces no error and exits with code
zero; the same follows end to end whenever the engine returns an empty
result list. -/
theorem similar_empty_results_warning_exit_zero :
    (∀ (tn cat : List Char) (s j : Bool) (o : Option (List Char)) (y m d : Nat),
      cliSimilarCmd tn cat (.ok []) s j o y m d = ⟨0, none, true, none⟩) ∧
    (∀ (tn cat : List Char) (entries : List Entry) (phrase : List Char)
        (t : ℚ) (s j : Bool) (o : Option (List Char)) (y m d : Nat),
      rank entries phrase t = .ok [] →
      cliSimilarRun tn cat entries phrase t s j o y m d = ⟨0, none, true, none⟩) := by
  constructor
  · intro tn cat s j o y m d
    rfl
  · intro tn cat entries phrase t s j o y m d h
    unfold cliSimilarRun
    rw [h]
    rfl

/-- Witness for C9: an empty dataset at threshold one half yields the
warning outcome through the full CLI path. -/
theorem similar_empty_results_warning_exit_zero_witness :
    rank [] ['x'] (1 / 2) = .ok [] ∧
    cliSimilarRun [] [] [] ['x'] (1 / 2) false false none 2026 10 12 =
      ⟨0, none, true, none⟩ := by
  have h : rank [] ['x'] (1 / 2) = .ok [] := by
    rw [rank, if_neg (by norm_num)]
    rfl
  exact ⟨h, (similar_empty_results_warning_exit_zero.2 [] [] [] ['x'] (1 / 2)
    false false none 2026 10 12 h)⟩

end SCheck
